import Mathlib

/-!
Shallow embedding of `timesheet_dashboard.py` (timesheet analytics dashboard):
the filter stage (`apply_filters`), the weekly compliance check
(`incomplete_timesheets`), the chatbot query router (`analyze_query`) and its
handler routines, together with the aggregation helpers they use.

Conventions of the embedding:
* A dataframe row is a `Record`; derived load-time columns that require
  calendar arithmetic (`Month_Name`) are carried as fields filled at load.
* Dates are day indices (`Nat`): the proleptic-Gregorian ordinal minus one,
  so that `datum % 7` is Python's `date.weekday()` (0 = Monday), since day 0
  (0001-01-01) is a Monday.
* Money/hours (`float64` columns holding exact decimals) are modelled as `ℚ`.
  A float expression whose denominator is zero (NaN/inf in numpy) is modelled
  as `none : Option ℚ`.
* A Python handler that can raise, or that returns an in-band informational
  message, returns a `HandlerOut`.
-/

/-- One row of the timesheet dataframe after `load_data` (CSV columns plus the
derived `Month_Name` column computed at load from `Datum.dt.strftime`). -/
structure Record where
  medewerker : String
  datum : Nat
  project : String
  relatie : String
  categorie : String
  urensoort : String
  aantal : ℚ
  uurtarief : ℚ
  totaal : ℚ
  toelichting : String
  month_name : String
deriving DecidableEq, Repr

/-- Character-list test: `pat` occurs at the start of `text`. -/
def charsStart : List Char → List Char → Bool
  | [], _ => true
  | _ :: _, [] => false
  | a :: as, b :: bs => a == b && charsStart as bs

/-- Character-list substring containment (Python `pat in text`). -/
def charsContain : List Char → List Char → Bool
  | [], pat => pat.isEmpty
  | c :: cs, pat => charsStart pat (c :: cs) || charsContain cs pat

/-- Python `pattern in text` on strings. -/
def strContains (text pat : String) : Bool :=
  charsContain text.data pat.data

/-- ASCII lower-casing, Python `str.lower` on the ASCII inputs used here. -/
def lowerStr (s : String) : String :=
  ⟨s.data.map Char.toLower⟩

/-- A character stripped by Python `str.strip()`. -/
def isStripChar (c : Char) : Bool :=
  c == ' ' || c == '\t' || c == '\n' || c == '\r' || c == '\x0b' || c == '\x0c'

/-- Python `str.strip()`: drop leading and trailing whitespace. -/
def stripStr (s : String) : String :=
  ⟨((s.data.dropWhile isStripChar).reverse.dropWhile isStripChar).reverse⟩

/-- Models `user_question.lower().strip()`, the normalisation in `analyze_query`. -/
def normalizeQ (s : String) : String :=
  stripStr (lowerStr s)

/-- Models `self._contains_patterns(text, patterns)`: any pattern is a substring. -/
def containsPatterns (text : String) (patterns : List String) : Bool :=
  patterns.any (fun p => strContains text p)

/-- The derived `Is_Leave` column:
`df['Categorie'].str.contains('Leave|Absence', case=False)`. -/
def is_leave (r : Record) : Bool :=
  strContains (lowerStr r.categorie) "leave" || strContains (lowerStr r.categorie) "absence"

/-- Lexicographic order on char lists by code point, as `Ord String` uses. -/
def chLe : List Char → List Char → Bool
  | [], _ => true
  | _ :: _, [] => false
  | a :: as, b :: bs =>
    if a.val < b.val then true
    else if b.val < a.val then false
    else chLe as bs

/-- String order used to model pandas sorting group keys ascending. -/
def strLe (a b : String) : Bool := chLe a.data b.data

/-- Insertion step of the generic insertion sort. -/
def insertLe (le : α → α → Bool) (a : α) : List α → List α
  | [] => [a]
  | b :: l => if le a b then a :: b :: l else b :: insertLe le a l

/-- Generic insertion sort by a boolean comparison. -/
def sortLe (le : α → α → Bool) : List α → List α
  | [] => []
  | a :: l => insertLe le a (sortLe le l)

/-- Descending comparison on `(key, summed value)` pairs, modelling
`sort_values(ascending=False)` on an aggregated series. -/
def descVal (p q : String × ℚ) : Bool := decide (q.2 ≤ p.2)

/-- Sort an aggregated series descending by value. -/
def sortDesc (l : List (String × ℚ)) : List (String × ℚ) := sortLe descVal l

/-- The group keys of `dataframe.groupby(key)`: distinct values, sorted
ascending as pandas does. -/
def keysOf (key : Record → String) (rows : List Record) : List String :=
  sortLe strLe (rows.map key).dedup

/-- Models `dataframe.groupby(key)[col].sum()`: one `(key, sum)` pair per distinct
key value, keys ascending. -/
def groupSumBy (key : Record → String) (f : Record → ℚ) (rows : List Record) :
    List (String × ℚ) :=
  (keysOf key rows).map (fun k => (k, ((rows.filter (fun r => key r == k)).map f).sum))

/-- Models `df['Aantal'].sum()`. -/
def sumAantal (rows : List Record) : ℚ := (rows.map (fun r => r.aantal)).sum

/-- Models `df['Totaal'].sum()`. -/
def sumTotaal (rows : List Record) : ℚ := (rows.map (fun r => r.totaal)).sum

/-- Models `df['Uurtarief'].sum()` (used for the mean rate). -/
def sumUurtarief (rows : List Record) : ℚ := (rows.map (fun r => r.uurtarief)).sum

/-- Sum of `Aantal` over one employee's rows: the per-group value of
`groupby('Medewerker')['Aantal'].sum()`. -/
def loggedHours (rows : List Record) (emp : String) : ℚ :=
  ((rows.filter (fun r => r.medewerker == emp)).map (fun r => r.aantal)).sum

/-- Models the `'Is_Leave': 'any'` aggregation for one employee. -/
def had_leave (rows : List Record) (emp : String) : Bool :=
  (rows.filter (fun r => r.medewerker == emp)).any is_leave

/-- Round half to even (numpy rounding), used by `DataFrame.round`. -/
def roundHalfEven (q : ℚ) : ℤ :=
  let f := ⌊q⌋
  let r := q - f
  if r < 1/2 then f
  else if 1/2 < r then f + 1
  else if f % 2 = 0 then f else f + 1

/-- Models `.round(1)`: round to one decimal place, half to even. -/
def round1 (q : ℚ) : ℚ := (roundHalfEven (q * 10) : ℚ) / 10

/-- The rows of the reference week:
`filtered_df[(Datum.dt.date >= last_week_start) & (Datum.dt.date <= last_week_end)]`. -/
def last_week_data (rows : List Record) (s e : Nat) : List Record :=
  rows.filter (fun r => decide (s ≤ r.datum) && decide (r.datum ≤ e))

/-- Models `[d for d in pd.date_range(start, end) if d.weekday() < 5]` counted:
the Monday–Friday days in the closed interval. -/
def working_days_count (s e : Nat) : Nat :=
  (((List.range (e + 1 - s)).map (fun i => s + i)).filter (fun d => d % 7 < 5)).length

/-- Models `expected_hours = len(working_days_last_week) * 8`. -/
def expected_hours (s e : Nat) : ℚ := (working_days_count s e : ℚ) * 8

/-- The employees flagged by the dashboard compliance block: the index of
`last_week_employee_hours[(Hours Logged < expected_hours) & (Had Leave == False)]`,
where `Hours Logged` is the per-employee sum of `Aantal` after `.round(1)`. -/
def incomplete_timesheets (rows : List Record) (s e : Nat) : List String :=
  let wk := last_week_data rows s e
  (keysOf (fun r => r.medewerker) wk).filter
    (fun emp => decide (round1 (loggedHours wk emp) < expected_hours s e) && !had_leave wk emp)

/-- Models `incomplete_display['Hours Missing'] = expected_hours - incomplete_display['Hours Logged']`
(the logged column holds the rounded sums). -/
def missing_hours (rows : List Record) (s e : Nat) (emp : String) : ℚ :=
  expected_hours s e - round1 (loggedHours (last_week_data rows s e) emp)

/-- Outcome of a chatbot handler routine: a normal structured result, an
in-band informational message, or an uncaught Python exception. -/
inductive HandlerOut (α : Type) where
  | ok : α → HandlerOut α
  | message : HandlerOut α
  | raised : HandlerOut α
deriving DecidableEq, Repr

/-- The routing outcome of `SecureTimesheetChatbot.analyze_query`. -/
inductive Route where
  | employees | projects | timePeriod | compliance | totals
  | revenue | trends | clients | comparison | helpR
deriving DecidableEq, Repr

/-- The dispatch chain of `analyze_query`, verbatim from the source's
if/elif cascade over `_contains_patterns`. -/
def analyzeRoute (user_question : String) : Route :=
  let question := normalizeQ user_question
  if containsPatterns question ["who worked", "top employee", "most hours", "best performer"] then
    .employees
  else if containsPatterns question ["project", "which project", "top project"] then
    .projects
  else if containsPatterns question ["last week", "last month", "this month", "last quarter"] then
    .timePeriod
  else if containsPatterns question ["compliance", "missing", "incomplete", "not submitted"] then
    .compliance
  else if containsPatterns question ["total", "sum", "how much", "how many"] then
    .totals
  else if containsPatterns question ["revenue", "money", "billing", "cost"] then
    .revenue
  else if containsPatterns question ["trend", "pattern", "increase", "decrease", "growth"] then
    .trends
  else if containsPatterns question ["client", "customer", "relatie"] then
    .clients
  else if containsPatterns question ["compare", "vs", "versus", "difference"] then
    .comparison
  else
    .helpR

/-- The router's category/keyword table in its fixed priority order, stated
from the specification for the refinement theorem. -/
def routerTable : List (Route × List String) :=
  [(.employees, ["who worked", "top employee", "most hours", "best performer"]),
   (.projects, ["project", "which project", "top project"]),
   (.timePeriod, ["last week", "last month", "this month", "last quarter"]),
   (.compliance, ["compliance", "missing", "incomplete", "not submitted"]),
   (.totals, ["total", "sum", "how much", "how many"]),
   (.revenue, ["revenue", "money", "billing", "cost"]),
   (.trends, ["trend", "pattern", "increase", "decrease", "growth"]),
   (.clients, ["client", "customer", "relatie"]),
   (.comparison, ["compare", "vs", "versus", "difference"])]

/-- First category of `routerTable` whose keyword list matches the (already
normalised) input; fall back to help. Stated from the specification. -/
def firstMatchRoute (question : String) : Route :=
  match routerTable.find? (fun c => containsPatterns question c.2) with
  | some c => c.1
  | none => .helpR

/-- Models `top_3.iloc[0]/emp_hours.mean()*100-100` in `_get_top_employees`:
`none` models the NaN produced when the mean of hours is zero. -/
def pct_above_avg (rows : List Record) (top : ℚ) : Option ℚ :=
  let m := sumAantal rows / ((keysOf (fun r => r.medewerker) rows).length : ℚ)
  if m = 0 then none else some (top / m * 100 - 100)

/-- Models `_get_top_employees`: employee hour sums sorted descending, truncated to
three, plus the percent-above-average figure. On an empty record set the
source raises `IndexError` at `top_3.iloc[0]`, modelled by `raised`. -/
def get_top_employees (rows : List Record) : HandlerOut (List (String × ℚ) × Option ℚ) :=
  let emp_hours := sortDesc (groupSumBy (fun r => r.medewerker) (fun r => r.aantal) rows)
  match emp_hours with
  | [] => .raised
  | t :: _ => .ok (emp_hours.take 3, pct_above_avg rows t.2)

/-- Sum of a column over the rows matching one key value
(`series.get(k, 0)` on a group-by sum). -/
def sumColWhere (key : Record → String) (k : String) (f : Record → ℚ)
    (rows : List Record) : ℚ :=
  ((rows.filter (fun r => key r == k)).map f).sum

/-- Models `_get_project_insights`: top-3 projects by hours with their revenue, and
the number of active projects. -/
def get_project_insights (rows : List Record) :
    HandlerOut (List (String × ℚ × ℚ) × Nat) :=
  let proj_hours := sortDesc (groupSumBy (fun r => r.project) (fun r => r.aantal) rows)
  .ok ((proj_hours.take 3).map
        (fun p => (p.1, p.2, sumColWhere (fun r => r.project) p.1 (fun r => r.totaal) rows)),
       proj_hours.length)

/-- Models `series.idxmax()` paired with `series.max()` on a key-sorted aggregated
series: first pair attaining the maximum (callers guard non-emptiness). -/
def idxmaxPair : List (String × ℚ) → Option (String × ℚ)
  | [] => none
  | p :: l => some (l.foldl (fun a q => if a.2 < q.2 then q else a) p)

/-- Models `series.idxmin()` paired with `series.min()`, as `idxmaxPair`. -/
def idxminPair : List (String × ℚ) → Option (String × ℚ)
  | [] => none
  | p :: l => some (l.foldl (fun a q => if q.2 < a.2 then q else a) p)

/-- The data formatted by `_get_time_period_analysis` when the period has rows. -/
structure TPStats where
  period_name : String
  total_hours : ℚ
  total_revenue : ℚ
  active_employees : Nat
  top_performer : Option (String × ℚ)
deriving DecidableEq, Repr

/-- Models `_get_time_period_analysis`: select the trailing window by keyword,
return the "no data found" message when it is empty. `today` is
`datetime.now()` as a day index. -/
def get_time_period_analysis (today : Nat) (rows : List Record) (question : String) :
    HandlerOut TPStats :=
  let sel :=
    if strContains question "last week" then (today - 7, "last week")
    else if strContains question "last month" then (today - 30, "last 30 days")
    else (today - 30, "recent period")
  let period_data := rows.filter (fun r => decide (sel.1 ≤ r.datum))
  match period_data with
  | [] => .message
  | _ :: _ =>
    .ok ⟨sel.2, sumAantal period_data, sumTotaal period_data,
         (keysOf (fun r => r.medewerker) period_data).length,
         idxmaxPair (groupSumBy (fun r => r.medewerker) (fun r => r.aantal) period_data)⟩

/-- Models `recent_data = self.df[self.df['Datum'] >= last_week]` in
`_check_compliance_issues`, with `cutoff = now - 7 days`. -/
def recent_data (cutoff : Nat) (rows : List Record) : List Record :=
  rows.filter (fun r => decide (cutoff ≤ r.datum))

/-- Models `incomplete = weekly_hours[weekly_hours < expected_hours]` with the
hardcoded 35-hour week of the chatbot variant; note no leave check. -/
def chatbot_incomplete (cutoff : Nat) (rows : List Record) : List (String × ℚ) :=
  (groupSumBy (fun r => r.medewerker) (fun r => r.aantal) (recent_data cutoff rows)).filter
    (fun p => decide (p.2 < 35))

/-- Models `_check_compliance_issues`: the "unable to check" message on an empty
recent window, otherwise the flagged employees with their weekly sums. -/
def check_compliance_issues (cutoff : Nat) (rows : List Record) :
    HandlerOut (List (String × ℚ)) :=
  match recent_data cutoff rows with
  | [] => .message
  | _ :: _ => .ok (chatbot_incomplete cutoff rows)

/-- The data formatted by `_get_totals`. -/
structure TotalsData where
  total_hours : ℚ
  total_revenue : ℚ
  total_employees : Nat
  total_projects : Nat
  date_min : Nat
  date_max : Nat
  avg_rate : ℚ
deriving DecidableEq, Repr

/-- Models `_get_totals`: on an empty record set `Datum.min()` is `NaT` and
`NaT.strftime` raises `ValueError`, modelled by `raised`. -/
def get_totals (rows : List Record) : HandlerOut TotalsData :=
  match rows with
  | [] => .raised
  | r :: rest =>
    .ok ⟨sumAantal (r :: rest), sumTotaal (r :: rest),
         (keysOf (fun x => x.medewerker) (r :: rest)).length,
         (keysOf (fun x => x.project) (r :: rest)).length,
         (rest.map (fun x => x.datum)).foldl Nat.min r.datum,
         (rest.map (fun x => x.datum)).foldl Nat.max r.datum,
         sumUurtarief (r :: rest) / ((r :: rest).length : ℚ)⟩

/-- Models `pct = (rev/revenue_by_category.sum()*100)` in `_get_revenue_insights`:
`none` models the NaN/inf produced when total revenue is zero. -/
def cat_share_pct (rows : List Record) (rev : ℚ) : Option ℚ :=
  if sumTotaal rows = 0 then none else some (rev / sumTotaal rows * 100)

/-- The data formatted by `_get_revenue_insights`. -/
structure RevenueData where
  by_category : List (String × ℚ × Option ℚ)
  by_client : List (String × ℚ)
  avg_rate : Option ℚ
deriving DecidableEq, Repr

/-- Models `_get_revenue_insights`: top-3 revenue categories with their share of the
total, top-3 clients, and the mean rate (`none` models NaN on no rows). -/
def get_revenue_insights (rows : List Record) : HandlerOut RevenueData :=
  let by_cat := sortDesc (groupSumBy (fun r => r.categorie) (fun r => r.totaal) rows)
  let by_client := sortDesc (groupSumBy (fun r => r.relatie) (fun r => r.totaal) rows)
  .ok ⟨(by_cat.take 3).map (fun p => (p.1, p.2, cat_share_pct rows p.2)),
       by_client.take 3,
       match rows with
       | [] => none
       | _ :: _ => some (sumUurtarief rows / (rows.length : ℚ))⟩

/-- Trend direction printed by `_analyze_trends`. -/
inductive TrendDir where
  | increasing | decreasing | stable
deriving DecidableEq, Repr

/-- The data formatted by `_analyze_trends` when two or more months exist. -/
structure TrendData where
  peak_month : Option (String × ℚ)
  low_month : Option (String × ℚ)
  variation : Option ℚ
  direction : TrendDir
deriving DecidableEq, Repr

/-- Mean of the values of an aggregated series (callers guard non-emptiness). -/
def meanVals (l : List (String × ℚ)) : ℚ := (l.map (fun p => p.2)).sum / (l.length : ℚ)

/-- Models `_analyze_trends`: monthly hour sums grouped by `Month_Name` (key-sorted,
hence alphabetical); the "need more time periods" message below two months. -/
def analyze_trends (rows : List Record) : HandlerOut TrendData :=
  let monthly := groupSumBy (fun r => r.month_name) (fun r => r.aantal) rows
  if monthly.length < 2 then .message
  else
    let peak := idxmaxPair monthly
    let low := idxminPair monthly
    let m := meanVals monthly
    let recent_avg := meanVals (monthly.drop (monthly.length - 3))
    let earlier_avg := meanVals (monthly.take 3)
    .ok ⟨peak, low,
         match peak, low with
         | some pk, some lw => if m = 0 then none else some ((pk.2 - lw.2) / m * 100)
         | _, _ => none,
         if earlier_avg * (11/10) < recent_avg then .increasing
         else if recent_avg < earlier_avg * (9/10) then .decreasing
         else .stable⟩

/-- Models `_get_client_insights`: top-3 clients by hours with their revenue, and the
client count. -/
def get_client_insights (rows : List Record) :
    HandlerOut (List (String × ℚ × ℚ) × Nat) :=
  let client_hours := sortDesc (groupSumBy (fun r => r.relatie) (fun r => r.aantal) rows)
  .ok ((client_hours.take 3).map
        (fun p => (p.1, p.2, sumColWhere (fun r => r.relatie) p.1 (fun r => r.totaal) rows)),
       client_hours.length)

/-- The data formatted by `_compare_periods`. -/
structure CompareData where
  first_hours : ℚ
  second_hours : ℚ
  change : Option ℚ
  direction : TrendDir
deriving DecidableEq, Repr

/-- Models `_compare_periods`: stable sort by date, split at the midpoint, compare
half sums; `change` is `none` (NaN) when the first half sums to zero. -/
def compare_periods (rows : List Record) : HandlerOut CompareData :=
  let data_sorted := sortLe (fun a b => decide (a.datum ≤ b.datum)) rows
  let mid := data_sorted.length / 2
  let first_hours := sumAantal (data_sorted.take mid)
  let second_hours := sumAantal (data_sorted.drop mid)
  let change : Option ℚ :=
    if first_hours = 0 then none
    else some ((second_hours - first_hours) / first_hours * 100)
  .ok ⟨first_hours, second_hours, change,
       match change with
       | none => .stable
       | some c => if 5 < c then .increasing else if c < -5 then .decreasing else .stable⟩

/-- Models `_get_help_response`: the static help text returned when no keyword
category matches. -/
def help_response : String :=
  "🤖 **ACMI Analytics Assistant Help**\n\nI can help you analyze your timesheet data! Try asking questions like:\n\n**👥 People & Performance:**\n• \"Who worked the most hours?\"\n• \"Show me top employees\"\n• \"Who are the best performers?\"\n\n**📋 Projects & Work:**\n• \"Which projects have the most hours?\"\n• \"Show me project insights\"\n• \"What are our biggest projects?\"\n\n**📅 Time Periods:**\n• \"What happened last week?\"\n• \"Show me last month's data\"\n• \"Analyze last quarter\"\n\n**⚠️ Compliance & Issues:**\n• \"Check compliance issues\"\n• \"Who has incomplete timesheets?\"\n• \"Show missing entries\"\n\n**💰 Revenue & Business:**\n• \"What's our total revenue?\"\n• \"Show me revenue by client\"\n• \"Revenue trends\"\n\n**📈 Trends & Patterns:**\n• \"Analyze trends\"\n• \"Compare time periods\"\n• \"What are the patterns?\"\n\nJust ask in natural language - I'll do my best to help! 🚀"

/-- The value returned by one call to `analyze_query`: which handler ran and
the data its response template embeds. -/
inductive Answer where
  | employeesA : HandlerOut (List (String × ℚ) × Option ℚ) → Answer
  | projectsA : HandlerOut (List (String × ℚ × ℚ) × Nat) → Answer
  | timePeriodA : HandlerOut TPStats → Answer
  | complianceA : HandlerOut (List (String × ℚ)) → Answer
  | totalsA : HandlerOut TotalsData → Answer
  | revenueA : HandlerOut RevenueData → Answer
  | trendsA : HandlerOut TrendData → Answer
  | clientsA : HandlerOut (List (String × ℚ × ℚ) × Nat) → Answer
  | comparisonA : HandlerOut CompareData → Answer
  | helpA : String → Answer
deriving DecidableEq, Repr

/-- Models `SecureTimesheetChatbot.analyze_query`: normalise, route by the keyword
cascade, dispatch to the matching handler. `today` is `datetime.now()`. -/
def analyze_query (today : Nat) (rows : List Record) (user_question : String) : Answer :=
  match analyzeRoute user_question with
  | .employees => .employeesA (get_top_employees rows)
  | .projects => .projectsA (get_project_insights rows)
  | .timePeriod => .timePeriodA (get_time_period_analysis today rows (normalizeQ user_question))
  | .compliance => .complianceA (check_compliance_issues (today - 7) rows)
  | .totals => .totalsA (get_totals rows)
  | .revenue => .revenueA (get_revenue_insights rows)
  | .trends => .trendsA (analyze_trends rows)
  | .clients => .clientsA (get_client_insights rows)
  | .comparison => .comparisonA (compare_periods rows)
  | .helpR => .helpA help_response

/-- One `{question, response, timestamp}` entry of `secure_chat_history`. -/
structure ChatEntry where
  question : String
  response : Answer
  timestamp : String

/-- The session state the ask-button flow touches: the loaded record set and
the append-only conversation log. -/
structure SessionState where
  df : List Record
  secure_chat_history : List ChatEntry

/-- The ask-button flow of `add_secure_chatbot_interface`: call
`analyze_query` on the current record set and append one
`{question, response, timestamp}` entry to `secure_chat_history`. -/
def process_question (today : Nat) (ts : String) (st : SessionState)
    (user_question : String) : SessionState :=
  let response := analyze_query today st.df user_question
  { df := st.df,
    secure_chat_history := st.secure_chat_history ++ [⟨user_question, response, ts⟩] }

/-- The sidebar filter selections consumed by `apply_filters`. -/
structure FilterState where
  selected_date_range : List Nat
  selected_employees : List String
  selected_projects : List String
  selected_clients : List String
  selected_categories : List String

/-- Models `apply_filters(dataframe)`: date mask when the range picker holds two
dates, then the four `isin` masks, each skipped when `'All'` is selected or
the selection is empty. -/
def apply_filters (fs : FilterState) (dataframe : List Record) : List Record :=
  let d1 :=
    match fs.selected_date_range with
    | [s, e] => dataframe.filter (fun r => decide (s ≤ r.datum) && decide (r.datum ≤ e))
    | _ => dataframe
  let d2 :=
    if !fs.selected_employees.contains "All" && !fs.selected_employees.isEmpty then
      d1.filter (fun r => fs.selected_employees.contains r.medewerker)
    else d1
  let d3 :=
    if !fs.selected_projects.contains "All" && !fs.selected_projects.isEmpty then
      d2.filter (fun r => fs.selected_projects.contains r.project)
    else d2
  let d4 :=
    if !fs.selected_clients.contains "All" && !fs.selected_clients.isEmpty then
      d3.filter (fun r => fs.selected_clients.contains r.relatie)
    else d3
  let d5 :=
    if !fs.selected_categories.contains "All" && !fs.selected_categories.isEmpty then
      d4.filter (fun r => fs.selected_categories.contains r.categorie)
    else d4
  d5

/-- Concrete row builder for the witness and counterexample inputs. -/
def mkRec (emp : String) (d : Nat) (cat : String) (hrs rate tot : ℚ) : Record :=
  ⟨emp, d, "Website", "Acme", cat, "Regular", hrs, rate, tot, "", "January"⟩

/-- One employee, one weekday row of 39.96 hours inside the week 0–6. -/
def exRound : List Record := [mkRec "A" 2 "Development" (999/25) 50 1998]

/-- One employee with exactly 30 logged hours in the week 0–6, no leave. -/
def exThirty : List Record := [mkRec "B" 1 "Consulting" 30 50 1500]

/-- One employee on leave who logged 20 hours in the trailing window. -/
def exLeave : List Record := [mkRec "A" 10 "Leave" 20 0 0]

/-- A zero-hours, zero-revenue record set. -/
def exZero : List Record := [mkRec "A" 0 "Other" 0 0 0]

/-- Two employees across two projects, for aggregation witnesses. -/
def exAgg : List Record :=
  [mkRec "A" 0 "Development" 8 50 400,
   mkRec "B" 1 "Consulting" 6 60 360,
   mkRec "A" 2 "Development" 4 50 200]

/-- An employee whose only record is outside the compliance week 0–6. -/
def exOutside : List Record := [mkRec "C" 10 "Development" 8 50 400]

/-- A two-employee record set for the filter witness. -/
def exFilter : List Record :=
  [mkRec "E1" 3 "Development" 8 50 400, mkRec "E2" 4 "Consulting" 6 60 360]

/-- A filter selection restricting the employee dimension to `{E1}`. -/
def fsEmp : FilterState := ⟨[], ["E1"], ["All"], ["All"], ["All"]⟩

theorem mem_insertLe {le : α → α → Bool} {a b : α} {l : List α} :
    b ∈ insertLe le a l ↔ b = a ∨ b ∈ l := by
  induction l with
  | nil => simp [insertLe]
  | cons c l ih =>
    simp only [insertLe]
    split
    · simp [List.mem_cons, or_left_comm]
    · simp [List.mem_cons, ih, or_left_comm]

theorem insertLe_perm (le : α → α → Bool) (a : α) (l : List α) :
    List.Perm (insertLe le a l) (a :: l) := by
  induction l with
  | nil => rfl
  | cons c l ih =>
    simp only [insertLe]
    split
    · rfl
    · exact (ih.cons c).trans (List.Perm.swap a c l)

theorem sortLe_perm (le : α → α → Bool) (l : List α) : List.Perm (sortLe le l) l := by
  induction l with
  | nil => rfl
  | cons a l ih => exact (insertLe_perm le a (sortLe le l)).trans (ih.cons a)

theorem mem_sortLe {le : α → α → Bool} {a : α} {l : List α} :
    a ∈ sortLe le l ↔ a ∈ l :=
  (sortLe_perm le l).mem_iff

theorem nodup_sortLe {le : α → α → Bool} {l : List α} (h : l.Nodup) :
    (sortLe le l).Nodup :=
  (sortLe_perm le l).nodup_iff.mpr h

theorem mem_keysOf {key : Record → String} {rows : List Record} {k : String} :
    k ∈ keysOf key rows ↔ ∃ r ∈ rows, key r = k := by
  simp [keysOf, mem_sortLe, List.mem_dedup, List.mem_map]

theorem nodup_keysOf {key : Record → String} {rows : List Record} :
    (keysOf key rows).Nodup :=
  nodup_sortLe (List.nodup_dedup _)

/-- The head of a value-descending aggregated series dominates every entry. -/
def HeadDominates : List (String × ℚ) → Prop
  | [] => True
  | t :: rest => ∀ p ∈ t :: rest, p.2 ≤ t.2

theorem headDominates_insert (a : String × ℚ) (m : List (String × ℚ))
    (h : HeadDominates m) : HeadDominates (insertLe descVal a m) := by
  cases m with
  | nil =>
    show ∀ p ∈ [a], p.2 ≤ a.2
    intro p hp
    rw [List.mem_singleton.mp hp]
  | cons b m' =>
    have h' : ∀ p ∈ b :: m', p.2 ≤ b.2 := h
    simp only [insertLe]
    by_cases hle : descVal a b
    · rw [if_pos hle]
      have hba : b.2 ≤ a.2 := of_decide_eq_true hle
      show ∀ p ∈ a :: b :: m', p.2 ≤ a.2
      intro p hp
      rcases List.mem_cons.mp hp with rfl | hp'
      · exact le_refl _
      · exact le_trans (h' p hp') hba
    · rw [if_neg hle]
      have hab : a.2 ≤ b.2 := by
        have hn : ¬ b.2 ≤ a.2 := fun hc => hle (decide_eq_true hc)
        exact le_of_lt (lt_of_not_le hn)
      show ∀ p ∈ b :: insertLe descVal a m', p.2 ≤ b.2
      intro p hp
      rcases List.mem_cons.mp hp with rfl | hp'
      · exact le_refl _
      · rcases mem_insertLe.mp hp' with rfl | hm'
        · exact hab
        · exact h' p (List.mem_cons_of_mem _ hm')

theorem headDominates_sortDesc (l : List (String × ℚ)) :
    HeadDominates (sortDesc l) := by
  induction l with
  | nil => trivial
  | cons a l ih => exact headDominates_insert a (sortLe descVal l) ih

/-- C1 counterexample: an employee with 39.96 logged hours in a 5-working-day
week and no leave has fewer logged hours than the 40 expected, yet the
dashboard compliance check does not flag them, because the comparison is made
on the hour sum rounded to one decimal (39.96 rounds to 40.0). -/
theorem weekly_compliance_round_cex :
    loggedHours (last_week_data exRound 0 6) "A" < expected_hours 0 6
    ∧ had_leave (last_week_data exRound 0 6) "A" = false
    ∧ "A" ∉ incomplete_timesheets exRound 0 6 := by
  have hl : loggedHours (last_week_data exRound 0 6) "A" = 999/25 := by
    simp [loggedHours, last_week_data, exRound, mkRec]
  have hwd : working_days_count 0 6 = 5 := by decide
  refine ⟨?_, by decide, ?_⟩
  · rw [hl]
    norm_num [expected_hours, hwd]
  · have hk : keysOf (fun r => r.medewerker) (last_week_data exRound 0 6) = ["A"] := by decide
    have hlt : ¬ (round1 (loggedHours (last_week_data exRound 0 6) "A") < expected_hours 0 6) := by
      rw [hl]
      norm_num [round1, roundHalfEven, expected_hours, hwd]
    simp only [incomplete_timesheets, hk, List.filter, mkRec, decide_eq_false hlt,
      Bool.false_and, List.not_mem_nil, not_false_eq_true]

/-- C1 (amended): for an employee active in the reference week, the dashboard
check flags them iff their logged hours rounded to one decimal are below
expected_hours and they have no leave record; with a 5-working-day week,
exactly 40 logged hours and no leave are never flagged, and 30 logged hours
with no leave are flagged with missing_hours = 10. -/
theorem weekly_compliance_flag_iff (rows : List Record) (s e : Nat) (emp : String)
    (h : emp ∈ keysOf (fun r => r.medewerker) (last_week_data rows s e)) :
    (emp ∈ incomplete_timesheets rows s e ↔
      round1 (loggedHours (last_week_data rows s e) emp) < expected_hours s e
        ∧ had_leave (last_week_data rows s e) emp = false)
    ∧ (loggedHours (last_week_data rows s e) emp = 40 → working_days_count s e = 5 →
        had_leave (last_week_data rows s e) emp = false →
        emp ∉ incomplete_timesheets rows s e)
    ∧ (loggedHours (last_week_data rows s e) emp = 30 → working_days_count s e = 5 →
        had_leave (last_week_data rows s e) emp = false →
        emp ∈ incomplete_timesheets rows s e ∧ missing_hours rows s e emp = 10) := by
  have hiff : emp ∈ incomplete_timesheets rows s e ↔
      round1 (loggedHours (last_week_data rows s e) emp) < expected_hours s e
        ∧ had_leave (last_week_data rows s e) emp = false := by
    simp only [incomplete_timesheets, List.mem_filter, h, true_and, Bool.and_eq_true,
      decide_eq_true_eq, Bool.not_eq_true']
  refine ⟨hiff, ?_, ?_⟩
  · intro h40 hwd hlv
    rw [hiff, h40]
    have h1 : round1 (40 : ℚ) = 40 := by norm_num [round1, roundHalfEven]
    have h2 : expected_hours s e = 40 := by norm_num [expected_hours, hwd]
    rw [h1, h2]
    simp
  · intro h30 hwd hlv
    have h1 : round1 (30 : ℚ) = 30 := by norm_num [round1, roundHalfEven]
    have h2 : expected_hours s e = 40 := by norm_num [expected_hours, hwd]
    constructor
    · rw [hiff, h30, h1, h2]
      exact ⟨by norm_num, hlv⟩
    · rw [missing_hours, h30, h1, h2]
      norm_num

/-- C1 witness: the 30-hour employee of `exThirty` is flagged with
missing_hours = 10 in the week 0-6. -/
theorem weekly_compliance_flag_iff_witness :
    "B" ∈ incomplete_timesheets exThirty 0 6 ∧ missing_hours exThirty 0 6 "B" = 10 :=
  (weekly_compliance_flag_iff exThirty 0 6 "B" (by decide)).2.2
    (by simp [loggedHours, last_week_data, exThirty, mkRec]) (by decide) (by decide)

/-- C3 counterexample: the chatbot compliance variant ignores the leave flag:
an employee whose only record in the trailing window is a 20-hour Leave entry
(so had_leave is true) is nevertheless flagged, since 20 < 35. -/
theorem chatbot_compliance_leave_cex :
    had_leave (recent_data 3 exLeave) "A" = true
    ∧ ("A", (20:ℚ)) ∈ chatbot_incomplete 3 exLeave := by
  constructor
  · decide
  · have hk : keysOf (fun r => r.medewerker) (recent_data 3 exLeave) = ["A"] := by decide
    have hsum : (((recent_data 3 exLeave).filter (fun r => r.medewerker == "A")).map
        (fun r => r.aantal)).sum = 20 := by
      simp [recent_data, exLeave, mkRec]
    simp only [chatbot_incomplete, groupSumBy, hk, List.map_cons, List.map_nil, hsum]
    have hlt : ((20:ℚ) < 35) := by norm_num
    simp [List.filter, hlt]

/-- C3 (amended): the dashboard compliance check never flags an employee who
has a record with the leave flag set in the reference week, regardless of
logged hours (the chatbot variant, by contrast, never consults the flag). -/
theorem dashboard_leave_never_flagged (rows : List Record) (s e : Nat) (emp : String)
    (h : had_leave (last_week_data rows s e) emp = true) :
    emp ∉ incomplete_timesheets rows s e := by
  intro hmem
  simp only [incomplete_timesheets, List.mem_filter, Bool.and_eq_true,
    Bool.not_eq_true'] at hmem
  rw [h] at hmem
  exact absurd hmem.2.2 (by simp)

/-- C3 witness: the on-leave employee of `exLeave` is not flagged by the
dashboard check over the week 7-13. -/
theorem dashboard_leave_never_flagged_witness :
    "A" ∉ incomplete_timesheets exLeave 7 13 :=
  dashboard_leave_never_flagged exLeave 7 13 "A" (by decide)

/-- C10: an employee with no record dated inside the compliance interval never
appears among the flagged employees: the check only considers employees with
at least one record in the interval. -/
theorem absent_employee_never_flagged (rows : List Record) (s e : Nat) (emp : String)
    (h : ∀ r ∈ rows, s ≤ r.datum → r.datum ≤ e → r.medewerker ≠ emp) :
    emp ∉ incomplete_timesheets rows s e := by
  intro hmem
  simp only [incomplete_timesheets, List.mem_filter] at hmem
  rcases mem_keysOf.mp hmem.1 with ⟨r, hr, hre⟩
  simp only [last_week_data, List.mem_filter, Bool.and_eq_true, decide_eq_true_eq] at hr
  exact h r hr.1 hr.2.1 hr.2.2 hre

/-- C10 witness: employee C, whose only record is dated outside the week 0-6,
is not flagged there. -/
theorem absent_employee_never_flagged_witness :
    "C" ∉ incomplete_timesheets exOutside 0 6 :=
  absent_employee_never_flagged exOutside 0 6 "C" (by decide)
theorem mem_of_guard_filter {c : Bool} {p : Record → Bool} {l : List Record} {r : Record}
    (h : r ∈ (if c then l.filter p else l)) : r ∈ l := by
  split at h
  · exact (List.mem_filter.mp h).1
  · exact h

/-- C2: with the sentinel All selected for every categorical dimension,
apply_filters returns exactly the rows whose date lies in the closed interval
of the two picked dates; and whenever a dimension carries a concrete
selection (no All, non-empty), every returned row's value in that dimension
is a member of the selection under exact string equality. -/
theorem apply_filters_spec (rows : List Record) (s e : Nat) (fs : FilterState) :
    (apply_filters ⟨[s, e], ["All"], ["All"], ["All"], ["All"]⟩ rows
      = rows.filter (fun r => decide (s ≤ r.datum) && decide (r.datum ≤ e)))
    ∧ (fs.selected_employees.contains "All" = false → fs.selected_employees ≠ [] →
        ∀ r ∈ apply_filters fs rows, fs.selected_employees.contains r.medewerker = true)
    ∧ (fs.selected_projects.contains "All" = false → fs.selected_projects ≠ [] →
        ∀ r ∈ apply_filters fs rows, fs.selected_projects.contains r.project = true)
    ∧ (fs.selected_clients.contains "All" = false → fs.selected_clients ≠ [] →
        ∀ r ∈ apply_filters fs rows, fs.selected_clients.contains r.relatie = true)
    ∧ (fs.selected_categories.contains "All" = false → fs.selected_categories ≠ [] →
        ∀ r ∈ apply_filters fs rows, fs.selected_categories.contains r.categorie = true) := by
  have hAll : (["All"] : List String).contains "All" = true := by decide
  refine ⟨?_, ?_, ?_, ?_, ?_⟩
  · simp [apply_filters, hAll]
  · intro hA hne r hr
    have hie : fs.selected_employees.isEmpty = false := by
      cases h' : fs.selected_employees with
      | nil => exact absurd h' hne
      | cons a l => rfl
    simp only [apply_filters, hA, hie, Bool.not_false, Bool.and_self, if_true] at hr
    exact (List.mem_filter.mp (mem_of_guard_filter (mem_of_guard_filter
      (mem_of_guard_filter hr)))).2
  · intro hA hne r hr
    have hie : fs.selected_projects.isEmpty = false := by
      cases h' : fs.selected_projects with
      | nil => exact absurd h' hne
      | cons a l => rfl
    simp only [apply_filters, hA, hie, Bool.not_false, Bool.and_self, if_true] at hr
    exact (List.mem_filter.mp (mem_of_guard_filter (mem_of_guard_filter hr))).2
  · intro hA hne r hr
    have hie : fs.selected_clients.isEmpty = false := by
      cases h' : fs.selected_clients with
      | nil => exact absurd h' hne
      | cons a l => rfl
    simp only [apply_filters, hA, hie, Bool.not_false, Bool.and_self, if_true] at hr
    exact (List.mem_filter.mp (mem_of_guard_filter hr)).2
  · intro hA hne r hr
    have hie : fs.selected_categories.isEmpty = false := by
      cases h' : fs.selected_categories with
      | nil => exact absurd h' hne
      | cons a l => rfl
    simp only [apply_filters, hA, hie, Bool.not_false, Bool.and_self, if_true] at hr
    exact (List.mem_filter.mp hr).2

/-- C2 witness: filtering `exFilter` by the concrete employee set containing
only E1 returns only rows whose employee is in that set. -/
theorem apply_filters_spec_witness :
    (["E1"] : List String).contains
      ((mkRec "E1" 3 "Development" 8 50 400).medewerker) = true :=
  (apply_filters_spec exFilter 0 6 fsEmp).2.1 (by decide) (by decide)
    (mkRec "E1" 3 "Development" 8 50 400) (by decide)
theorem sum_map_update (keys : List String) (k0 : String) (x : ℚ) (g : String → ℚ)
    (hnd : keys.Nodup) (hk : k0 ∈ keys) :
    (keys.map (fun k => if k0 == k then x + g k else g k)).sum = x + (keys.map g).sum := by
  induction keys with
  | nil => cases hk
  | cons k ks ih =>
    rcases List.mem_cons.mp hk with rfl | hk'
    · have hnotin : k0 ∉ ks := (List.nodup_cons.mp hnd).1
      have hmap : ks.map (fun k => if k0 == k then x + g k else g k) = ks.map g := by
        apply List.map_congr_left
        intro a ha
        have hb : (k0 == a) = false := by
          cases hb : k0 == a
          · rfl
          · exact absurd (eq_of_beq hb ▸ ha) hnotin
        rw [hb]
        simp
      simp only [List.map_cons, List.sum_cons, hmap, beq_self_eq_true, if_true]
      ring
    · have hne : (k0 == k) = false := by
        cases hb : k0 == k
        · rfl
        · exact absurd (eq_of_beq hb ▸ hk') (List.nodup_cons.mp hnd).1
      simp only [List.map_cons, List.sum_cons, hne]
      rw [if_neg (by simp), ih (List.nodup_cons.mp hnd).2 hk']
      ring

theorem partition_sum (key : Record → String) (f : Record → ℚ) (keys : List String)
    (rows : List Record) (hnd : keys.Nodup) (hcov : ∀ r ∈ rows, key r ∈ keys) :
    (keys.map (fun k => ((rows.filter (fun r => key r == k)).map f).sum)).sum
      = (rows.map f).sum := by
  induction rows with
  | nil => simp
  | cons r rest ih =>
    have hterm : ∀ k, ((List.filter (fun r' => key r' == k) (r :: rest)).map f).sum
        = if key r == k then f r + ((rest.filter (fun r' => key r' == k)).map f).sum
          else ((rest.filter (fun r' => key r' == k)).map f).sum := by
      intro k
      by_cases hb : (key r == k) = true
      · simp [List.filter_cons, hb]
      · simp [List.filter_cons, Bool.of_not_eq_true hb, hb]
    have hmap : keys.map (fun k => ((List.filter (fun r' => key r' == k) (r :: rest)).map f).sum)
        = keys.map (fun k => if key r == k
            then f r + ((rest.filter (fun r' => key r' == k)).map f).sum
            else ((rest.filter (fun r' => key r' == k)).map f).sum) :=
      List.map_congr_left (fun k _ => hterm k)
    rw [hmap, sum_map_update keys (key r) (f r) _ hnd (hcov r (List.mem_cons_self r rest)),
      ih (fun r' hr' => hcov r' (List.mem_cons_of_mem r hr'))]
    simp

/-- C8: for every non-empty record set and every categorical key, the sum of
hours over the full set equals the sum over all groups of the per-group hour
sums (additivity of the group-by aggregation). -/
theorem groupby_sum_additive (rows : List Record) (key : Record → String)
    (_h : rows ≠ []) :
    sumAantal rows = ((groupSumBy key (fun r => r.aantal) rows).map (fun p => p.2)).sum := by
  unfold groupSumBy sumAantal
  rw [List.map_map]
  have hc : ((fun p => p.2) ∘ fun k =>
      (k, ((rows.filter (fun r => key r == k)).map (fun r => r.aantal)).sum))
      = fun k => ((rows.filter (fun r => key r == k)).map (fun r => r.aantal)).sum := rfl
  rw [hc, partition_sum key (fun r => r.aantal) (keysOf key rows) rows nodup_keysOf
    (fun r hr => mem_keysOf.mpr ⟨r, hr, rfl⟩)]

/-- C8 witness: additivity at the concrete record set `exAgg` grouped by
employee. -/
theorem groupby_sum_additive_witness :
    sumAantal exAgg = ((groupSumBy (fun r => r.medewerker) (fun r => r.aantal) exAgg).map
      (fun p => p.2)).sum :=
  groupby_sum_additive exAgg (fun r => r.medewerker) (by simp [exAgg])
/-- C4: on a non-empty record set the input asking who worked the most hours
routes to the employee-performance handler, and the first-ranked entry of the
handler's response attains the maximum of the per-employee hour sums. -/
theorem who_worked_top_employee (today : Nat) (rows : List Record) (h : rows ≠ []) :
    analyzeRoute "Who worked the most hours?" = Route.employees
    ∧ analyze_query today rows "Who worked the most hours?"
        = Answer.employeesA (get_top_employees rows)
    ∧ ∃ top rest pct, get_top_employees rows = HandlerOut.ok (top :: rest, pct)
        ∧ top.2 = loggedHours rows top.1
        ∧ top.1 ∈ keysOf (fun r => r.medewerker) rows
        ∧ ∀ emp ∈ keysOf (fun r => r.medewerker) rows, loggedHours rows emp ≤ top.2 := by
  have hroute : analyzeRoute "Who worked the most hours?" = Route.employees := by decide
  refine ⟨hroute, ?_, ?_⟩
  · unfold analyze_query
    rw [hroute]
  · obtain ⟨r, hr⟩ : ∃ r, r ∈ rows := by
      cases rows with
      | nil => exact absurd rfl h
      | cons a l => exact ⟨a, List.mem_cons_self a l⟩
    have hmem : (r.medewerker, loggedHours rows r.medewerker)
        ∈ groupSumBy (fun x => x.medewerker) (fun x => x.aantal) rows :=
      List.mem_map_of_mem _ (mem_keysOf.mpr ⟨r, hr, rfl⟩)
    cases hsort : sortDesc (groupSumBy (fun x => x.medewerker) (fun x => x.aantal) rows) with
    | nil =>
      have := (@mem_sortLe (String × ℚ) descVal (r.medewerker, loggedHours rows r.medewerker)
        (groupSumBy (fun x => x.medewerker) (fun x => x.aantal) rows)).mpr hmem
      rw [show sortLe descVal (groupSumBy (fun x => x.medewerker) (fun x => x.aantal) rows)
        = sortDesc (groupSumBy (fun x => x.medewerker) (fun x => x.aantal) rows) from rfl,
        hsort] at this
      cases this
    | cons t rest =>
      refine ⟨t, rest.take 2, pct_above_avg rows t.2, ?_, ?_, ?_, ?_⟩
      · simp [get_top_employees, hsort]
      · have ht : t ∈ groupSumBy (fun x => x.medewerker) (fun x => x.aantal) rows := by
          have := @mem_sortLe (String × ℚ) descVal t
            (groupSumBy (fun x => x.medewerker) (fun x => x.aantal) rows)
          rw [show sortLe descVal (groupSumBy (fun x => x.medewerker) (fun x => x.aantal) rows)
            = sortDesc (groupSumBy (fun x => x.medewerker) (fun x => x.aantal) rows) from rfl,
            hsort] at this
          exact this.mp (List.mem_cons_self t rest)
        obtain ⟨k, hk, hkt⟩ := List.mem_map.mp ht
        rw [← hkt]
        rfl
      · have ht : t ∈ groupSumBy (fun x => x.medewerker) (fun x => x.aantal) rows := by
          have := @mem_sortLe (String × ℚ) descVal t
            (groupSumBy (fun x => x.medewerker) (fun x => x.aantal) rows)
          rw [show sortLe descVal (groupSumBy (fun x => x.medewerker) (fun x => x.aantal) rows)
            = sortDesc (groupSumBy (fun x => x.medewerker) (fun x => x.aantal) rows) from rfl,
            hsort] at this
          exact this.mp (List.mem_cons_self t rest)
        obtain ⟨k, hk, hkt⟩ := List.mem_map.mp ht
        rw [← hkt]
        exact hk
      · intro emp hemp
        have hpe : (emp, loggedHours rows emp)
            ∈ groupSumBy (fun x => x.medewerker) (fun x => x.aantal) rows :=
          List.mem_map_of_mem _ hemp
        have hps := (@mem_sortLe (String × ℚ) descVal (emp, loggedHours rows emp)
          (groupSumBy (fun x => x.medewerker) (fun x => x.aantal) rows)).mpr hpe
        have hd := headDominates_sortDesc
          (groupSumBy (fun x => x.medewerker) (fun x => x.aantal) rows)
        rw [show sortLe descVal (groupSumBy (fun x => x.medewerker) (fun x => x.aantal) rows)
          = sortDesc (groupSumBy (fun x => x.medewerker) (fun x => x.aantal) rows) from rfl,
          hsort] at hps
        rw [hsort] at hd
        exact hd _ hps

/-- C4 witness: at the concrete record set `exAgg` the query dispatches to the
employee handler and its head entry dominates every employee's hour sum. -/
theorem who_worked_top_employee_witness :
    analyze_query 0 exAgg "Who worked the most hours?"
      = Answer.employeesA (get_top_employees exAgg)
    ∧ ∃ top rest pct, get_top_employees exAgg = HandlerOut.ok (top :: rest, pct)
        ∧ top.2 = loggedHours exAgg top.1
        ∧ top.1 ∈ keysOf (fun r => r.medewerker) exAgg
        ∧ ∀ emp ∈ keysOf (fun r => r.medewerker) exAgg, loggedHours exAgg emp ≤ top.2 :=
  ⟨(who_worked_top_employee 0 exAgg (by simp [exAgg])).2.1,
   (who_worked_top_employee 0 exAgg (by simp [exAgg])).2.2⟩
theorem firstMatchRoute_of_no_match (n : String)
    (h : ∀ c ∈ routerTable, containsPatterns n c.2 = false) :
    firstMatchRoute n = Route.helpR := by
  unfold firstMatchRoute
  rw [List.find?_eq_none.mpr (fun c hc => by simp [h c hc])]

/-- C5: for every input string the router equals the first-match scan of the
ordered category/keyword table applied to the lower-cased and trimmed input,
and an input containing no keyword of any category returns exactly the static
help response. -/
theorem router_first_match (q : String) (today : Nat) (rows : List Record) :
    analyzeRoute q = firstMatchRoute (normalizeQ q)
    ∧ ((∀ c ∈ routerTable, containsPatterns (normalizeQ q) c.2 = false) →
        analyze_query today rows q = Answer.helpA help_response) := by
  have hmain : analyzeRoute q = firstMatchRoute (normalizeQ q) := by
    unfold analyzeRoute firstMatchRoute routerTable
    dsimp only
    split_ifs with h1 h2 h3 h4 h5 h6 h7 h8 h9 <;> simp_all [List.find?]
  refine ⟨hmain, fun hnone => ?_⟩
  unfold analyze_query
  rw [hmain, firstMatchRoute_of_no_match _ hnone]

/-- C5 witness: the keyword-free input asdfqwerty matches the table scan and
yields exactly the static help response. -/
theorem router_first_match_witness :
    analyzeRoute "asdfqwerty" = firstMatchRoute (normalizeQ "asdfqwerty")
    ∧ analyze_query 0 [] "asdfqwerty" = Answer.helpA help_response :=
  ⟨(router_first_match "asdfqwerty" 0 []).1,
   (router_first_match "asdfqwerty" 0 []).2 (by decide)⟩
/-- C6 counterexample: on a record set whose total revenue and total hours are
both 0, the revenue-insights category share and the top-performer
percent-above-average are NaN (no rational value), not 0 - the code has no
zero-denominator guard at those sites. -/
theorem zero_denominator_cex :
    sumTotaal exZero = 0 ∧ sumAantal exZero = 0
    ∧ get_revenue_insights exZero
        = HandlerOut.ok ⟨[("Other", 0, none)], [("Acme", 0)], some 0⟩
    ∧ get_top_employees exZero = HandlerOut.ok ([("A", 0)], none) := by
  have htot : sumTotaal exZero = 0 := by simp [sumTotaal, exZero, mkRec]
  have hhrs : sumAantal exZero = 0 := by simp [sumAantal, exZero, mkRec]
  refine ⟨htot, hhrs, ?_, ?_⟩
  · have hkc : keysOf (fun r => r.categorie) exZero = ["Other"] := by decide
    have hkr : keysOf (fun r => r.relatie) exZero = ["Acme"] := by decide
    have hsc : ((exZero.filter (fun r => r.categorie == "Other")).map
        (fun r => r.totaal)).sum = 0 := by simp [exZero, mkRec]
    have hsr : ((exZero.filter (fun r => r.relatie == "Acme")).map
        (fun r => r.totaal)).sum = 0 := by simp [exZero, mkRec]
    simp only [get_revenue_insights, groupSumBy, hkc, hkr, List.map_cons, List.map_nil,
      hsc, hsr, sortDesc, sortLe, insertLe]
    simp [cat_share_pct, sumTotaal, exZero, mkRec, sumUurtarief]
  · have hke : keysOf (fun r => r.medewerker) exZero = ["A"] := by decide
    have hse : ((exZero.filter (fun r => r.medewerker == "A")).map
        (fun r => r.aantal)).sum = 0 := by simp [exZero, mkRec]
    simp only [get_top_employees, groupSumBy, hke, List.map_cons, List.map_nil, hse,
      sortDesc, sortLe, insertLe]
    simp [pct_above_avg, sumAantal, exZero, mkRec]

/-- C6 (amended): whenever total revenue is 0 the per-category revenue share
evaluates to NaN (modelled none), and whenever total hours are 0 the
percent-above-average evaluates to NaN; neither returns 0. -/
theorem zero_denominator_nan (rows : List Record) (rev top : ℚ)
    (h : sumTotaal rows = 0) :
    cat_share_pct rows rev = none
    ∧ (sumAantal rows = 0 → pct_above_avg rows top = none) := by
  refine ⟨by simp [cat_share_pct, h], fun hh => ?_⟩
  simp [pct_above_avg, hh]

/-- C6 witness: both zero-denominator percentages are NaN at the concrete
all-zero record set `exZero`. -/
theorem zero_denominator_nan_witness :
    cat_share_pct exZero 0 = none ∧ pct_above_avg exZero 0 = none :=
  ⟨(zero_denominator_nan exZero 0 0 (by simp [sumTotaal, exZero, mkRec])).1,
   (zero_denominator_nan exZero 0 0 (by simp [sumTotaal, exZero, mkRec])).2
     (by simp [sumAantal, exZero, mkRec])⟩
/-- C7: on an empty record set the employee-performance and totals handlers
raise uncaught exceptions (IndexError at top_3.iloc[0], ValueError at
NaT.strftime) instead of returning an informational message, and these raises
propagate through the router; the time-period and compliance handlers do
return their in-band messages. -/
theorem empty_data_handlers_raise :
    analyze_query 0 [] "Who worked the most hours?" = Answer.employeesA HandlerOut.raised
    ∧ analyze_query 0 [] "What is the total?" = Answer.totalsA HandlerOut.raised
    ∧ get_top_employees ([] : List Record) = HandlerOut.raised
    ∧ get_totals ([] : List Record) = HandlerOut.raised
    ∧ get_time_period_analysis 30 ([] : List Record) "last week" = HandlerOut.message
    ∧ check_compliance_issues 0 ([] : List Record) = HandlerOut.message := by
  refine ⟨?_, ?_, rfl, rfl, rfl, rfl⟩ <;> decide

/-- C9: one call to the ask-button flow appends exactly one
question/response/timestamp entry to the conversation log, with the response
computed by analyze_query on the current record set, and leaves the record
set unchanged. -/
theorem process_question_frame (today : Nat) (ts : String) (st : SessionState) (q : String) :
    (process_question today ts st q).df = st.df
    ∧ (process_question today ts st q).secure_chat_history
        = st.secure_chat_history ++ [⟨q, analyze_query today st.df q, ts⟩]
    ∧ (process_question today ts st q).secure_chat_history.length
        = st.secure_chat_history.length + 1 := by
  refine ⟨rfl, rfl, ?_⟩
  simp [process_question]
